import Mathlib

/-
Verification of the diagram-generation core of the aws_networker repository.

The data model mirrors the dictionaries built by `get_network_resources`
(src/mapper.py) and consumed by `NetworkDiagramGenerator`
(src/mermaid_maker.py).  The emitter functions below are line-by-line
translations of the methods of `NetworkDiagramGenerator`: the Python code
only ever appends to `self.diagram`, so each method is rendered as a pure
function returning the list of lines it appends.
-/

namespace AwsNetworker

/-- A route entry, as built by `get_network_resources` in src/mapper.py
(fields `destination`, `target`). -/
structure Route where
  destination : String
  target : String
deriving DecidableEq, Repr

/-- A route table, as consumed by `_add_route_table` and `_process_subnet`
in src/mermaid_maker.py. -/
structure RouteTable where
  id : String
  name : String
  routes : List Route
  subnet_associations : List String
deriving DecidableEq, Repr

/-- An ingress rule of a security group (src/mapper.py, `rules_ingress`). -/
structure IngressRule where
  protocol : String
  port_range : String
  sources : List String
deriving DecidableEq, Repr

/-- A security group, as consumed by `_add_security_group`. -/
structure SecurityGroup where
  id : String
  name : String
  description : String
  rules_ingress : List IngressRule
deriving DecidableEq, Repr

/-- A subnet, as consumed by `_process_subnet` and `_process_vpc`. -/
structure Subnet where
  id : String
  name : String
  cidr : String
  az : String
  public : Bool
deriving DecidableEq, Repr

/-- A VPC with its nested resources. -/
structure VPC where
  id : String
  name : String
  cidr : String
  subnets : List Subnet
  route_tables : List RouteTable
  security_groups : List SecurityGroup
deriving DecidableEq, Repr

/-- The network model handed to the generator (`self.data`); only the
`vpcs` field is read by `generate_diagram`. -/
structure NetworkModel where
  vpcs : List VPC
deriving DecidableEq, Repr

/-- Character-level action of Python `str.replace('-', '_')`. -/
def sanitizeChar (c : Char) : Char :=
  if c = '-' then '_' else c

/-- Python `x.replace('-', '_')`, the identifier sanitizer used throughout
src/mermaid_maker.py (lines 24, 53, 58, 71, 91, 104). -/
def sanitize (s : String) : String :=
  ⟨s.data.map sanitizeChar⟩

/-- Method `_add_route_table` (src/mermaid_maker.py lines 89-100). -/
def add_route_table (rt : RouteTable) (subnet_id : String) : List String :=
  let rt_id := sanitize rt.id
  let routes_str := String.intercalate "<br/>"
    (rt.routes.map (fun route => "- " ++ route.destination ++ " → " ++ route.target))
  [ "                rt_" ++ rt_id ++ "[\"Route Table<br/>" ++ routes_str ++ "\"]",
    "                rt_" ++ rt_id ++ " --> subnet_" ++ subnet_id ]

/-- Method `_add_security_group` (src/mermaid_maker.py lines 102-113). -/
def add_security_group (sg : SecurityGroup) (subnet_id : String) : List String :=
  let sg_id := sanitize sg.id
  let rules_str := String.intercalate "<br/>"
    (sg.rules_ingress.map (fun rule =>
      "- " ++ rule.protocol.toUpper ++ " " ++ rule.port_range ++ " from " ++
        String.intercalate ", " rule.sources))
  [ "                sg_" ++ sg_id ++ "[\"" ++ sg.name ++ "<br/>Inbound:<br/>" ++ rules_str ++ "\"]",
    "                sg_" ++ sg_id ++ " --> subnet_" ++ subnet_id ]

/-- Method `_process_subnet` (src/mermaid_maker.py lines 69-87): the subnet
subgraph opening, the route tables whose associations contain the subnet's
id, all security groups of the VPC, and the closing line. -/
def process_subnet (subnet : Subnet) (vpc : VPC) : List String :=
  let subnet_id := sanitize subnet.id
  let subnet_type := if subnet.public then "Public" else "Private"
  [ "            subgraph subnet_" ++ subnet_id ++ "[\"" ++ subnet_type ++
      " Subnet (" ++ subnet.cidr ++ ")\"]" ]
  ++ vpc.route_tables.flatMap (fun rt =>
      if rt.subnet_associations.contains subnet.id then add_route_table rt subnet_id else [])
  ++ vpc.security_groups.flatMap (fun sg => add_security_group sg subnet_id)
  ++ [ "            end" ]

/-- Method `_process_az` (src/mermaid_maker.py lines 56-67). -/
def process_az (az : String) (subnets : List Subnet) (vpc : VPC) : List String :=
  let az_id := sanitize az
  [ "        subgraph " ++ az_id ++ "[\"" ++ az ++ "\"]" ]
  ++ subnets.flatMap (fun subnet => process_subnet subnet vpc)
  ++ [ "        end" ]

/-- One step of the AZ-grouping loop of `_process_vpc` (lines 32-37):
append the subnet to its AZ's bucket, creating the bucket at the end on
first occurrence (Python dicts preserve insertion order). -/
def insertAZ (acc : List (String × List Subnet)) (s : Subnet) :
    List (String × List Subnet) :=
  if acc.any (fun p => p.1 == s.az) then
    acc.map (fun p => if p.1 == s.az then (p.1, p.2 ++ [s]) else p)
  else
    acc ++ [(s.az, [s])]

/-- The AZ grouping built by `_process_vpc` (src/mermaid_maker.py lines
31-37): an insertion-ordered association list from AZ to its subnets. -/
def groupByAZ (subnets : List Subnet) : List (String × List Subnet) :=
  subnets.foldl insertAZ []

/-- Method `_process_vpc` (src/mermaid_maker.py lines 22-54): VPC subgraph, AZ
blocks in grouping order, closing line, Internet-Gateway node, and one
gateway edge per public subnet in declaration order. -/
def process_vpc (vpc : VPC) : List String :=
  let vpc_id := sanitize vpc.id
  [ "    subgraph " ++ vpc_id ++ "[\"" ++ vpc.name ++ " (" ++ vpc.cidr ++ ")\"]" ]
  ++ (groupByAZ vpc.subnets).flatMap (fun p => process_az p.1 p.2 vpc)
  ++ [ "    end" ]
  ++ [ "    igw_" ++ vpc_id ++ "[\"Internet Gateway\"]" ]
  ++ vpc.subnets.flatMap (fun subnet =>
      if subnet.public then
        [ "    igw_" ++ vpc_id ++ " --> subnet_" ++ sanitize subnet.id ]
      else [])

/-- Method `_add_styling` (src/mermaid_maker.py lines 115-129): the fixed style
footer. -/
def styling_lines : List String :=
  [ "    %% Styling",
    "    classDef vpc fill:#f5f5f5,stroke:#333,stroke-width:2px",
    "    classDef az fill:#e6f3ff,stroke:#333,stroke-width:1px",
    "    classDef subnet fill:#fff,stroke:#333,stroke-width:1px",
    "    classDef component fill:#fff,stroke:#666,stroke-width:1px,stroke-dasharray: 5 5",
    "",
    "    %% Apply styles",
    "    class vpc vpc",
    "    class az1 az",
    "    class pub_subnet,priv_subnet subnet",
    "    class pub_rt,web_sg,igw component" ]

/-- Method `generate_diagram` (src/mermaid_maker.py lines 9-20) as a pure
function of the model: start from `graph TB`, process every VPC, append
the styling, join with newline + four spaces. -/
def generate_diagram (m : NetworkModel) : String :=
  String.intercalate "\n    "
    (["graph TB"] ++ m.vpcs.flatMap process_vpc ++ styling_lines)

/-! ## Stateful embedding of the generator object

`NetworkDiagramGenerator` holds `self.data` and `self.diagram`;
`generate_diagram` reassigns `self.diagram = ['graph TB']` (line 11) and
then only appends.  The state is threaded explicitly. -/

/-- The fields of a `NetworkDiagramGenerator` instance. -/
structure GenState where
  data : NetworkModel
  diagram : List String
deriving DecidableEq, Repr

/-- Method `generate_diagram` acting on the generator object: returns the
updated object together with the returned string
(src/mermaid_maker.py lines 9-20). -/
def generate_diagramS (g : GenState) : GenState × String :=
  let g1 : GenState := { g with diagram := ["graph TB"] }
  let g2 : GenState := g1.data.vpcs.foldl
    (fun st vpc => { st with diagram := st.diagram ++ process_vpc vpc }) g1
  let g3 : GenState := { g2 with diagram := g2.diagram ++ styling_lines }
  (g3, String.intercalate "\n    " g3.diagram)

/-! ## The collector's placeholder substitution (src/mapper.py)

`get_network_resources` builds `routes` and `rules_ingress` from raw AWS
response dictionaries, substituting `"Unknown"` / `"All"` for absent
optional fields (src/mapper.py lines 53-59 and 76-83). -/

/-- A raw AWS route dictionary: its items in insertion order (keys
unique), values as strings. -/
abbrev RawRouteDict : Type := List (String × String)

/-- The route record built at src/mapper.py lines 55-58:
`destination = route.get('DestinationCidrBlock', 'Unknown')` and
`target = next((v for k, v in route.items() if k.endswith('Id')), 'Unknown')`. -/
def mapRoute (route : RawRouteDict) : Route :=
  { destination := (List.lookup "DestinationCidrBlock" route).getD "Unknown",
    target := ((List.find? (fun kv => kv.1.endsWith "Id") route).map Prod.snd).getD "Unknown" }

/-- A raw AWS `IpPermissions` entry: the optional fields read at
src/mapper.py lines 77-80. -/
structure RawIpPermission where
  ipProtocol : Option String
  fromPort : Option Int
  toPort : Option Int
  ipRanges : List String
deriving DecidableEq, Repr

/-- Rendering of one port bound inside
`f"{rule.get('FromPort', 'All')}-{rule.get('ToPort', 'All')}"`. -/
def portStr : Option Int → String
  | none => "All"
  | some n => toString n

/-- The ingress-rule record built at src/mapper.py lines 77-83. -/
def mapRule (r : RawIpPermission) : IngressRule :=
  { protocol := r.ipProtocol.getD "All",
    port_range := portStr r.fromPort ++ "-" ++ portStr r.toPort,
    sources := r.ipRanges }

/-! ## Raw-model embedding with absent fields

To settle the error-handling claims the generator is also embedded over a
model whose fields may be absent (`Option`), mirroring the Python
dictionary accesses exactly: `d['k']` raises `KeyError` when absent
(modelled as `Except.error`), `d.get('k')` / `d.get('k', default)`
substitutes a default and proceeds. -/

/-- A route dictionary as seen by `_add_route_table` (fields may be
absent). -/
structure RawRoute where
  destination : Option String
  target : Option String
deriving DecidableEq, Repr

/-- A route-table dictionary with possibly absent fields. -/
structure RawRouteTable where
  id : Option String
  name : Option String
  routes : Option (List RawRoute)
  subnet_associations : Option (List String)
deriving DecidableEq, Repr

/-- An ingress-rule dictionary with possibly absent fields. -/
structure RawIngressRule where
  protocol : Option String
  port_range : Option String
  sources : Option (List String)
deriving DecidableEq, Repr

/-- A security-group dictionary with possibly absent fields. -/
structure RawSecurityGroup where
  id : Option String
  name : Option String
  description : Option String
  rules_ingress : Option (List RawIngressRule)
deriving DecidableEq, Repr

/-- A subnet dictionary with possibly absent fields. -/
structure RawSubnet where
  id : Option String
  name : Option String
  cidr : Option String
  az : Option String
  public : Option Bool
deriving DecidableEq, Repr

/-- A VPC dictionary with possibly absent fields. -/
structure RawVPC where
  id : Option String
  name : Option String
  cidr : Option String
  subnets : Option (List RawSubnet)
  route_tables : Option (List RawRouteTable)
  security_groups : Option (List RawSecurityGroup)
deriving DecidableEq, Repr

/-- The top-level dictionary handed to the generator. -/
structure RawNetworkModel where
  vpcs : Option (List RawVPC)
deriving DecidableEq, Repr

/-- Access `d['k']`: a mandatory dictionary access; absent key raises. -/
def req {α : Type} (o : Option α) (key : String) : Except String α :=
  match o with
  | some a => Except.ok a
  | none => Except.error ("KeyError: " ++ key)

/-- Method `_add_route_table` over a raw route table (accesses `rt['id']`,
`rt['routes']`, `route['destination']`, `route['target']`). -/
def add_route_tableE (rt : RawRouteTable) (subnet_id : String) :
    Except String (List String) := do
  let rtid ← req rt.id "id"
  let rt_id := sanitize rtid
  let routes ← req rt.routes "routes"
  let parts ← routes.mapM (fun route => do
    let dest ← req route.destination "destination"
    let tgt ← req route.target "target"
    pure ("- " ++ dest ++ " → " ++ tgt))
  let routes_str := String.intercalate "<br/>" parts
  pure [ "                rt_" ++ rt_id ++ "[\"Route Table<br/>" ++ routes_str ++ "\"]",
         "                rt_" ++ rt_id ++ " --> subnet_" ++ subnet_id ]

/-- Method `_add_security_group` over a raw security group (accesses `sg['id']`,
`sg['rules_ingress']`, the rule fields, then `sg['name']`). -/
def add_security_groupE (sg : RawSecurityGroup) (subnet_id : String) :
    Except String (List String) := do
  let sgid ← req sg.id "id"
  let sg_id := sanitize sgid
  let rules ← req sg.rules_ingress "rules_ingress"
  let parts ← rules.mapM (fun rule => do
    let proto ← req rule.protocol "protocol"
    let pr ← req rule.port_range "port_range"
    let srcs ← req rule.sources "sources"
    pure ("- " ++ proto.toUpper ++ " " ++ pr ++ " from " ++ String.intercalate ", " srcs))
  let rules_str := String.intercalate "<br/>" parts
  let nm ← req sg.name "name"
  pure [ "                sg_" ++ sg_id ++ "[\"" ++ nm ++ "<br/>Inbound:<br/>" ++ rules_str ++ "\"]",
         "                sg_" ++ sg_id ++ " --> subnet_" ++ subnet_id ]

/-- Method `_process_subnet` over raw dictionaries: `subnet['id']` (line 71),
`subnet.get('public')` (line 72, default), `subnet['cidr']` (line 75),
`vpc['route_tables']` (line 79), `rt.get('subnet_associations', [])`
(line 80, default), `vpc['security_groups']` (line 84). -/
def process_subnetE (subnet : RawSubnet) (vpc : RawVPC) :
    Except String (List String) := do
  let sid ← req subnet.id "id"
  let subnet_id := sanitize sid
  let subnet_type := if subnet.public.getD false then "Public" else "Private"
  let scidr ← req subnet.cidr "cidr"
  let header := [ "            subgraph subnet_" ++ subnet_id ++ "[\"" ++ subnet_type ++
      " Subnet (" ++ scidr ++ ")\"]" ]
  let rts ← req vpc.route_tables "route_tables"
  let rtLines ← rts.mapM (fun rt =>
    if (rt.subnet_associations.getD []).contains sid then
      add_route_tableE rt subnet_id
    else
      pure [])
  let sgs ← req vpc.security_groups "security_groups"
  let sgLines ← sgs.mapM (fun sg => add_security_groupE sg subnet_id)
  pure (header ++ rtLines.flatten ++ sgLines.flatten ++ [ "            end" ])

/-- One step of the raw grouping loop: `az = subnet['az']` (line 34) then
insertion into the ordered mapping. -/
def insertAZE (acc : List (String × List RawSubnet)) (az : String) (s : RawSubnet) :
    List (String × List RawSubnet) :=
  if acc.any (fun p => p.1 == az) then
    acc.map (fun p => if p.1 == az then (p.1, p.2 ++ [s]) else p)
  else
    acc ++ [(az, [s])]

/-- The raw grouping loop (src/mermaid_maker.py lines 32-37). -/
def groupByAZE (acc : List (String × List RawSubnet)) :
    List RawSubnet → Except String (List (String × List RawSubnet))
  | [] => Except.ok acc
  | s :: rest => do
      let az ← req s.az "az"
      groupByAZE (insertAZE acc az s) rest

/-- Method `_process_az` over raw dictionaries. -/
def process_azE (az : String) (subnets : List RawSubnet) (vpc : RawVPC) :
    Except String (List String) := do
  let az_id := sanitize az
  let bodies ← subnets.mapM (fun s => process_subnetE s vpc)
  pure ([ "        subgraph " ++ az_id ++ "[\"" ++ az ++ "\"]" ]
    ++ bodies.flatten ++ [ "        end" ])

/-- The gateway-edge loop (lines 51-54): `subnet.get('public')` with a
default, `subnet['id']` mandatory on the public branch. -/
def igwEdgesE (vpc_id : String) : List RawSubnet → Except String (List String)
  | [] => Except.ok []
  | s :: rest => do
      let herePart ←
        if s.public.getD false then do
          let sid ← req s.id "id"
          pure [ "    igw_" ++ vpc_id ++ " --> subnet_" ++ sanitize sid ]
        else
          pure []
      let restPart ← igwEdgesE vpc_id rest
      pure (herePart ++ restPart)

/-- Method `_process_vpc` over raw dictionaries, in the source's access order:
`vpc['id']` (24), `vpc['name']`/`vpc['cidr']` (28), `vpc['subnets']`
(33), the grouping loop, the AZ blocks, the gateway node and edges. -/
def process_vpcE (vpc : RawVPC) : Except String (List String) := do
  let vid ← req vpc.id "id"
  let vpc_id := sanitize vid
  let vname ← req vpc.name "name"
  let vcidr ← req vpc.cidr "cidr"
  let header := [ "    subgraph " ++ vpc_id ++ "[\"" ++ vname ++ " (" ++ vcidr ++ ")\"]" ]
  let subs ← req vpc.subnets "subnets"
  let groups ← groupByAZE [] subs
  let azBlocks ← groups.mapM (fun p => process_azE p.1 p.2 vpc)
  let edges ← igwEdgesE vpc_id subs
  pure (header ++ azBlocks.flatten ++ [ "    end" ]
    ++ [ "    igw_" ++ vpc_id ++ "[\"Internet Gateway\"]" ] ++ edges)

/-- The VPC loop of `generate_diagram` over raw dictionaries. -/
def process_vpcsE : List RawVPC → Except String (List String)
  | [] => Except.ok []
  | v :: rest => do
      let a ← process_vpcE v
      let b ← process_vpcsE rest
      pure (a ++ b)

/-- Method `generate_diagram` over a raw model: `self.data['vpcs']` (line 14) is
mandatory; a `KeyError` anywhere aborts emission. -/
def generate_diagramE (m : RawNetworkModel) : Except String String := do
  let vs ← req m.vpcs "vpcs"
  let lines ← process_vpcsE vs
  pure (String.intercalate "\n    " (["graph TB"] ++ lines ++ styling_lines))

/-! ## Specification-side definitions

These definitions follow the spec's words (sections 4.2 and 4.3) and are
compared against the source-derived emitter in the refinement theorems. -/

/-- Spec 4.2: every route table of the VPC whose `subnet_associations`
contains the subnet's id, preserving the VPC's route-table order. -/
def routeTablesFor (subnet : Subnet) (vpc : VPC) : List RouteTable :=
  vpc.route_tables.filter (fun rt => rt.subnet_associations.contains subnet.id)

/-- Spec 4.2: all security groups of the VPC, for every subnet. -/
def securityGroupsFor (_subnet : Subnet) (vpc : VPC) : List SecurityGroup :=
  vpc.security_groups

/-- Spec 4.3: the keys of the grouping in order of first occurrence in
the input sequence. -/
def firstOccurrences (l : List String) : List String :=
  l.foldl (fun acc a => if a ∈ acc then acc else acc ++ [a]) []

/-- Spec 4.3: the grouping as an ordered mapping — AZ keys in order of
first occurrence, each mapped to the input-ordered subnets of that AZ. -/
def azGroupsSpec (subnets : List Subnet) : List (String × List Subnet) :=
  (firstOccurrences (subnets.map Subnet.az)).map
    (fun k => (k, subnets.filter (fun s => s.az == k)))

/-! ## Line classification for counting security-group lines -/

/-- Boolean prefix test on character lists. -/
def charsStart : List Char → List Char → Bool
  | [], _ => true
  | _ :: _, [] => false
  | a :: as, b :: bs => a == b && charsStart as bs

/-- The sixteen-space-indented `sg_` marker that opens exactly the node
and edge lines emitted by `_add_security_group`. -/
def sgMarker : List Char :=
  "                sg_".data

/-- A diagram line produced by `_add_security_group` (node or edge). -/
def startsWithSg (line : String) : Bool :=
  charsStart sgMarker line.data

/-- Number of security-group lines (node and edge declarations) among a
list of emitted lines. -/
def sgLineCount (lines : List String) : Nat :=
  (lines.filter startsWithSg).length

/-! ## Concrete instances used by witnesses and counterexamples -/

/-- An AWS ingress-permission entry with every optional field absent. -/
def c5Rule : RawIpPermission :=
  { ipProtocol := none, fromPort := none, toPort := none, ipRanges := [] }

/-- A route table whose single route was mapped from an empty raw AWS
route dictionary, so both its fields carry the placeholder. -/
def c5RouteTable : RouteTable :=
  { id := "rtb-1", name := "main", routes := [mapRoute ([] : RawRouteDict)],
    subnet_associations := ["subnet-1"] }

/-- A subnet in `us-east-1a` of the first VPC. -/
def c10Subnet1 : Subnet :=
  { id := "subnet-1", name := "s1", cidr := "10.0.1.0/24", az := "us-east-1a", public := false }

/-- A subnet in `us-east-1a` of the second VPC. -/
def c10Subnet2 : Subnet :=
  { id := "subnet-2", name := "s2", cidr := "10.1.1.0/24", az := "us-east-1a", public := false }

/-- First VPC of the duplicate-AZ model. -/
def c10VPC1 : VPC :=
  { id := "vpc-1", name := "A", cidr := "10.0.0.0/16",
    subnets := [c10Subnet1], route_tables := [], security_groups := [] }

/-- Second VPC of the duplicate-AZ model, with the same AZ string. -/
def c10VPC2 : VPC :=
  { id := "vpc-2", name := "B", cidr := "10.1.0.0/16",
    subnets := [c10Subnet2], route_tables := [], security_groups := [] }

/-- Two distinct VPCs each containing a subnet in `us-east-1a`. -/
def c10Model : NetworkModel :=
  { vpcs := [c10VPC1, c10VPC2] }

/-- A raw subnet whose `public` key is absent. -/
def c6RawSubnet : RawSubnet :=
  { id := some "subnet-1", name := some "s", cidr := some "10.0.1.0/24",
    az := some "us-east-1a", public := none }

/-- A raw VPC whose only subnet lacks the `public` key. -/
def c6RawVPC : RawVPC :=
  { id := some "vpc-1", name := some "A", cidr := some "10.0.0.0/16",
    subnets := some [c6RawSubnet], route_tables := some [], security_groups := some [] }

/-- A raw model whose only anomaly is the absent `public` key. -/
def c6RawModel : RawNetworkModel :=
  { vpcs := some [c6RawVPC] }

/-- A raw VPC lacking the mandatory `id` key. -/
def c6NoIdVPC : RawVPC :=
  { id := none, name := some "A", cidr := some "10.0.0.0/16",
    subnets := some [c6RawSubnet], route_tables := some [], security_groups := some [] }

/-- A raw model whose VPC lacks the mandatory `id` key. -/
def c6NoIdModel : RawNetworkModel :=
  { vpcs := some [c6NoIdVPC] }

/-! ## Helper lemmas -/

theorem flatMap_ite_eq_filter_flatMap {α β : Type} (l : List α) (p : α → Bool)
    (f : α → List β) :
    (l.flatMap (fun x => if p x then f x else [])) = (l.filter p).flatMap f := by
  induction l with
  | nil => rfl
  | cons a l ih =>
    by_cases h : p a <;>
      simp [List.flatMap_cons, List.filter_cons, h, ih]

theorem flatMap_singleton_eq_map {α β : Type} (l : List α) (f : α → β) :
    (l.flatMap (fun x => [f x])) = l.map f := by
  induction l with
  | nil => rfl
  | cons a l ih => simp [List.flatMap_cons, ih]

theorem mem_foldl_firstOcc (l : List String) :
    ∀ (acc : List String) (x : String),
      (x ∈ l.foldl (fun acc a => if a ∈ acc then acc else acc ++ [a]) acc)
        ↔ x ∈ acc ∨ x ∈ l := by
  induction l with
  | nil => intro acc x; simp
  | cons b l ih =>
    intro acc x
    rw [List.foldl_cons, ih]
    by_cases hb : b ∈ acc
    · simp only [if_pos hb, List.mem_cons]
      constructor
      · rintro (h | h)
        · exact Or.inl h
        · exact Or.inr (Or.inr h)
      · rintro (h | h | h)
        · exact Or.inl h
        · exact Or.inl (h ▸ hb)
        · exact Or.inr h
    · simp only [if_neg hb, List.mem_append, List.mem_singleton, List.mem_cons]
      tauto

theorem mem_firstOccurrences (l : List String) (x : String) :
    x ∈ firstOccurrences l ↔ x ∈ l := by
  rw [firstOccurrences, mem_foldl_firstOcc]
  simp

theorem nodup_foldl_firstOcc (l : List String) :
    ∀ acc : List String, acc.Nodup →
      (l.foldl (fun acc a => if a ∈ acc then acc else acc ++ [a]) acc).Nodup := by
  induction l with
  | nil => intro acc h; simpa using h
  | cons b l ih =>
    intro acc h
    rw [List.foldl_cons]
    by_cases hb : b ∈ acc
    · rw [if_pos hb]; exact ih acc h
    · rw [if_neg hb]
      exact ih _ (by simp [List.nodup_append, h, hb])

theorem nodup_firstOccurrences (l : List String) : (firstOccurrences l).Nodup :=
  nodup_foldl_firstOcc l [] (List.nodup_nil)

theorem firstOccurrences_append_singleton (l : List String) (a : String) :
    firstOccurrences (l ++ [a])
      = if a ∈ firstOccurrences l then firstOccurrences l
        else firstOccurrences l ++ [a] := by
  simp [firstOccurrences, List.foldl_append]

theorem insertAZ_azGroupsSpec (P : List Subnet) (s : Subnet) :
    insertAZ (azGroupsSpec P) s = azGroupsSpec (P ++ [s]) := by
  have hkeys : (P ++ [s]).map Subnet.az = P.map Subnet.az ++ [s.az] := by simp
  by_cases hmem : s.az ∈ firstOccurrences (P.map Subnet.az)
  · have hany : (azGroupsSpec P).any (fun p => p.1 == s.az) = true := by
      rw [List.any_eq_true]
      exact ⟨(s.az, P.filter (fun s' => s'.az == s.az)),
        List.mem_map.mpr ⟨s.az, hmem, rfl⟩, by simp⟩
    rw [insertAZ, if_pos hany, azGroupsSpec, azGroupsSpec, hkeys,
      firstOccurrences_append_singleton, if_pos hmem, List.map_map]
    apply List.map_congr_left
    intro k _
    by_cases hks : k = s.az
    · subst hks
      simp [List.filter_append]
    · have h1 : (k == s.az) = false := by
        rw [beq_eq_false_iff_ne]; exact hks
      have h2 : (s.az == k) = false := by
        rw [beq_eq_false_iff_ne]; exact Ne.symm hks
      simp [Function.comp, h1, h2, List.filter_append]
  · have hany : (azGroupsSpec P).any (fun p => p.1 == s.az) = false := by
      rw [List.any_eq_false]
      intro p hp
      obtain ⟨k, hk, rfl⟩ := List.mem_map.mp hp
      simp only [beq_iff_eq]
      exact fun h => hmem (h ▸ hk)
    have hnotP : s.az ∉ P.map Subnet.az := fun h => hmem ((mem_firstOccurrences _ _).mpr h)
    rw [insertAZ, if_neg (by simp [hany]), azGroupsSpec, azGroupsSpec, hkeys,
      firstOccurrences_append_singleton, if_neg hmem, List.map_append]
    congr 1
    · apply List.map_congr_left
      intro k hk
      have hks : s.az ≠ k := fun h => hmem (h ▸ hk)
      have h2 : (s.az == k) = false := by simp [hks]
      simp [List.filter_append, h2]
    · have hfilter : P.filter (fun s' => s'.az == s.az) = [] := by
        rw [List.filter_eq_nil_iff]
        intro a ha
        simp only [beq_iff_eq]
        exact fun h => hnotP (List.mem_map.mpr ⟨a, ha, h⟩)
      simp [List.filter_append, hfilter]

theorem foldl_insertAZ_spec (l : List Subnet) :
    ∀ P : List Subnet, l.foldl insertAZ (azGroupsSpec P) = azGroupsSpec (P ++ l) := by
  induction l with
  | nil => intro P; simp
  | cons s l ih =>
    intro P
    rw [List.foldl_cons, insertAZ_azGroupsSpec, ih (P ++ [s])]
    simp

theorem groupByAZ_eq_spec (l : List Subnet) : groupByAZ l = azGroupsSpec l := by
  have h0 : azGroupsSpec [] = [] := rfl
  rw [groupByAZ, ← h0, foldl_insertAZ_spec l [], List.nil_append]

theorem count_flatten_filter (x : Subnet) (l : List Subnet) (keys : List String) :
    List.count x ((keys.map (fun k => l.filter (fun s' => s'.az == k))).flatten)
      = List.count x.az keys * List.count x l := by
  induction keys with
  | nil => simp
  | cons k ks ih =>
    simp only [List.map_cons, List.flatten_cons, List.count_append, ih]
    by_cases h : x.az = k
    · subst h
      rw [List.count_filter (by simp), List.count_cons_self, Nat.succ_mul]
      omega
    · have hz : List.count x (l.filter (fun s' => s'.az == k)) = 0 := by
        rw [List.count_eq_zero]
        intro hmem
        exact h (by simpa using (List.mem_filter.mp hmem).2)
      rw [hz, List.count_cons_of_ne h]
      omega

theorem groupByAZ_flatten_perm (l : List Subnet) :
    List.Perm ((groupByAZ l).flatMap Prod.snd) l := by
  rw [groupByAZ_eq_spec, azGroupsSpec, List.perm_iff_count]
  intro x
  rw [List.flatMap_def, List.map_map]
  have hcomp : (Prod.snd ∘ fun k => (k, l.filter (fun s' => s'.az == k)))
      = fun k => l.filter (fun s' => s'.az == k) := rfl
  rw [hcomp, count_flatten_filter]
  by_cases hx : x ∈ l
  · have hmemaz : x.az ∈ firstOccurrences (l.map Subnet.az) :=
      (mem_firstOccurrences _ _).mpr (List.mem_map.mpr ⟨x, hx, rfl⟩)
    rw [List.count_eq_one_of_mem (nodup_firstOccurrences _) hmemaz, Nat.one_mul]
  · rw [List.count_eq_zero.mpr hx, Nat.mul_zero,
      Eq.symm (List.count_eq_zero.mpr hx)]

theorem groupByAZ_length_dedup (l : List Subnet) :
    (groupByAZ l).length = ((l.map Subnet.az).dedup).length := by
  rw [groupByAZ_eq_spec, azGroupsSpec, List.length_map]
  have hperm : List.Perm (firstOccurrences (l.map Subnet.az)) ((l.map Subnet.az).dedup) :=
    (List.perm_ext_iff_of_nodup (nodup_firstOccurrences _) (List.nodup_dedup _)).mpr
      (fun a => by rw [mem_firstOccurrences, List.mem_dedup])
  exact hperm.length_eq

theorem foldl_diagram_append (l : List VPC) :
    ∀ g : GenState,
      l.foldl (fun st vpc => { st with diagram := st.diagram ++ process_vpc vpc }) g
        = { g with diagram := g.diagram ++ l.flatMap process_vpc } := by
  induction l with
  | nil => intro g; simp
  | cons v l ih =>
    intro g
    rw [List.foldl_cons, ih]
    simp [List.flatMap_cons]

theorem charsStart_self_append (p r : List Char) : charsStart p (p ++ r) = true := by
  induction p with
  | nil => rfl
  | cons a as ih => simp [charsStart, ih]

theorem charsStart_take_false (p : List Char) :
    ∀ (c r : List Char), charsStart (p.take c.length) c = false →
      charsStart p (c ++ r) = false := by
  induction p with
  | nil => intro c r h; simp [charsStart] at h
  | cons a as ih =>
    intro c r h
    cases c with
    | nil => simp [charsStart] at h
    | cons b bs =>
      simp only [List.length_cons, List.take_succ_cons, charsStart] at h
      cases hab : (a == b) with
      | false => simp [charsStart, hab]
      | true =>
        rw [hab, Bool.true_and] at h
        simp [charsStart, hab, ih bs r h]

theorem startsWithSg_marker (x : String) :
    startsWithSg ("                sg_" ++ x) = true := by
  rw [startsWithSg, String.data_append]
  exact charsStart_self_append _ _

theorem startsWithSg_head_false (c : String)
    (h : charsStart (sgMarker.take c.data.length) c.data = false) (x : String) :
    startsWithSg (c ++ x) = false := by
  rw [startsWithSg, String.data_append]
  exact charsStart_take_false _ _ _ h

theorem sw_rt (x : String) : startsWithSg ("                rt_" ++ x) = false :=
  startsWithSg_head_false _ (by decide) x

theorem sw_subnet_open (x : String) :
    startsWithSg ("            subgraph subnet_" ++ x) = false :=
  startsWithSg_head_false _ (by decide) x

theorem sw_az_open (x : String) : startsWithSg ("        subgraph " ++ x) = false :=
  startsWithSg_head_false _ (by decide) x

theorem sw_vpc_open (x : String) : startsWithSg ("    subgraph " ++ x) = false :=
  startsWithSg_head_false _ (by decide) x

theorem sw_igw (x : String) : startsWithSg ("    igw_" ++ x) = false :=
  startsWithSg_head_false _ (by decide) x

theorem sw_end12 : startsWithSg "            end" = false := by decide

theorem sw_end8 : startsWithSg "        end" = false := by decide

theorem sw_end4 : startsWithSg "    end" = false := by decide

theorem sgLineCount_append (a b : List String) :
    sgLineCount (a ++ b) = sgLineCount a + sgLineCount b := by
  simp [sgLineCount, List.filter_append]

theorem sgLineCount_flatMap {α : Type} (l : List α) (f : α → List String) :
    sgLineCount (l.flatMap f) = (l.map (fun x => sgLineCount (f x))).sum := by
  induction l with
  | nil => rfl
  | cons a l ih => simp [List.flatMap_cons, sgLineCount_append, ih]

theorem sum_map_const {α : Type} (l : List α) (n : Nat) :
    (l.map (fun _ => n)).sum = n * l.length := by
  induction l with
  | nil => simp
  | cons a l ih =>
    simp only [List.map_cons, List.sum_cons, ih, List.length_cons, Nat.mul_succ]
    omega

theorem sgLineCount_add_security_group (sg : SecurityGroup) (sid : String) :
    sgLineCount (add_security_group sg sid) = 2 := by
  simp only [add_security_group, String.append_assoc, sgLineCount, List.filter,
    startsWithSg_marker, List.length_cons, List.length_nil]

theorem sgLineCount_add_route_table (rt : RouteTable) (sid : String) :
    sgLineCount (add_route_table rt sid) = 0 := by
  simp only [add_route_table, String.append_assoc, sgLineCount, List.filter,
    sw_rt, List.length_nil]

theorem sgLineCount_process_subnet (s : Subnet) (v : VPC) :
    sgLineCount (process_subnet s v) = 2 * v.security_groups.length := by
  simp only [process_subnet, String.append_assoc, sgLineCount_append,
    sgLineCount_flatMap]
  have h1 : sgLineCount [ "            subgraph subnet_" ++ (sanitize s.id ++ ("[\"" ++
      ((if s.public then "Public" else "Private") ++ (" Subnet (" ++ (s.cidr ++ ")\"]"))))) ] = 0 := by
    simp [sgLineCount, List.filter, sw_subnet_open]
  have h2 : (v.route_tables.map (fun rt =>
      sgLineCount (if rt.subnet_associations.contains s.id then
        add_route_table rt (sanitize s.id) else []))).sum = 0 := by
    have : ∀ rt ∈ v.route_tables,
        sgLineCount (if rt.subnet_associations.contains s.id then
          add_route_table rt (sanitize s.id) else []) = 0 := by
      intro rt _
      by_cases h : s.id ∈ rt.subnet_associations
      · rw [if_pos (by simp [h])]
        exact sgLineCount_add_route_table rt (sanitize s.id)
      · rw [if_neg (by simp [h])]
        rfl
    rw [List.map_congr_left this, sum_map_const]
    omega
  have h3 : (v.security_groups.map (fun sg =>
      sgLineCount (add_security_group sg (sanitize s.id)))).sum
        = 2 * v.security_groups.length := by
    have : ∀ sg ∈ v.security_groups,
        sgLineCount (add_security_group sg (sanitize s.id)) = 2 := by
      intro sg _
      exact sgLineCount_add_security_group sg (sanitize s.id)
    rw [List.map_congr_left this, sum_map_const]
  have h4 : sgLineCount ["            end"] = 0 := by
    simp [sgLineCount, List.filter, sw_end12]
  rw [h1, h2, h3, h4]
  omega

theorem sgLineCount_process_az (az : String) (subnets : List Subnet) (v : VPC) :
    sgLineCount (process_az az subnets v)
      = 2 * v.security_groups.length * subnets.length := by
  simp only [process_az, String.append_assoc, sgLineCount_append, sgLineCount_flatMap]
  have h1 : sgLineCount [ "        subgraph " ++ (sanitize az ++ ("[\"" ++ (az ++ "\"]"))) ] = 0 := by
    simp [sgLineCount, List.filter, sw_az_open]
  have h2 : (subnets.map (fun s => sgLineCount (process_subnet s v))).sum
      = 2 * v.security_groups.length * subnets.length := by
    have : ∀ s ∈ subnets, sgLineCount (process_subnet s v) = 2 * v.security_groups.length := by
      intro s _
      exact sgLineCount_process_subnet s v
    rw [List.map_congr_left this, sum_map_const]
  have h3 : sgLineCount ["        end"] = 0 := by
    simp [sgLineCount, List.filter, sw_end8]
  rw [h1, h2, h3]
  omega

theorem length_flatMap_snd_groupByAZ (l : List Subnet) :
    ((groupByAZ l).flatMap Prod.snd).length = l.length :=
  (groupByAZ_flatten_perm l).length_eq

theorem sgLineCount_process_vpc (v : VPC) :
    sgLineCount (process_vpc v)
      = 2 * (v.subnets.length * v.security_groups.length) := by
  simp only [process_vpc, String.append_assoc, sgLineCount_append, sgLineCount_flatMap]
  have h1 : sgLineCount [ "    subgraph " ++ (sanitize v.id ++ ("[\"" ++ (v.name ++ (" (" ++ (v.cidr ++ ")\"]"))))) ] = 0 := by
    simp [sgLineCount, List.filter, sw_vpc_open]
  have h2 : ((groupByAZ v.subnets).map (fun p => sgLineCount (process_az p.1 p.2 v))).sum
      = 2 * v.security_groups.length * v.subnets.length := by
    have hc : ∀ p ∈ groupByAZ v.subnets,
        sgLineCount (process_az p.1 p.2 v)
          = 2 * v.security_groups.length * p.2.length := by
      intro p _
      exact sgLineCount_process_az p.1 p.2 v
    rw [List.map_congr_left hc]
    have hfactor : ∀ (G : List (String × List Subnet)),
        (G.map (fun p => 2 * v.security_groups.length * p.2.length)).sum
          = 2 * v.security_groups.length * (G.map (fun p => p.2.length)).sum := by
      intro G
      induction G with
      | nil => simp
      | cons q G ih => simp [ih, Nat.mul_add]
    rw [hfactor]
    have hlen : ((groupByAZ v.subnets).map (fun p => p.2.length)).sum = v.subnets.length := by
      have := length_flatMap_snd_groupByAZ v.subnets
      rw [List.flatMap_def, List.length_flatten, List.map_map] at this
      exact this
    rw [hlen]
  have h3 : sgLineCount ["    end"] = 0 := by
    simp [sgLineCount, List.filter, sw_end4]
  have h4 : sgLineCount [ "    igw_" ++ (sanitize v.id ++ "[\"Internet Gateway\"]") ] = 0 := by
    simp [sgLineCount, List.filter, sw_igw]
  have h5 : (v.subnets.map (fun s => sgLineCount
      (if s.public then [ "    igw_" ++ (sanitize v.id ++ (" --> subnet_" ++ sanitize s.id)) ] else []))).sum = 0 := by
    have : ∀ s ∈ v.subnets, sgLineCount
        (if s.public then [ "    igw_" ++ (sanitize v.id ++ (" --> subnet_" ++ sanitize s.id)) ] else []) = 0 := by
      intro s _
      by_cases h : s.public
      · simp [h, sgLineCount, List.filter, sw_igw]
      · simp [h, sgLineCount]
    rw [List.map_congr_left this, sum_map_const]
    omega
  rw [h1, h2, h3, h4, h5]
  ring

/-! ## Claim theorems -/

/-- Claim C7: `sanitize` replaces every hyphen with an underscore and
changes no other character; it is idempotent and its output contains no
hyphen. -/
theorem sanitize_hyphen_spec (x : String) :
    (sanitize x).data = x.data.map (fun c => if c = '-' then '_' else c)
    ∧ sanitize (sanitize x) = sanitize x
    ∧ '-' ∉ (sanitize x).data := by
  refine ⟨rfl, ?_, ?_⟩
  · show String.mk ((x.data.map sanitizeChar).map sanitizeChar) = String.mk (x.data.map sanitizeChar)
    apply congrArg String.mk
    rw [List.map_map]
    apply List.map_congr_left
    intro c _
    by_cases h : c = '-' <;> simp [Function.comp, sanitizeChar, h]
  · intro hmem
    obtain ⟨c, _, hEq⟩ := List.mem_map.mp hmem
    by_cases h : c = '-'
    · rw [sanitizeChar, if_pos h] at hEq
      exact absurd hEq (by decide)
    · rw [sanitizeChar, if_neg h] at hEq
      exact h hEq

/-- Claim C1: inside a subnet's block, exactly the route tables whose
`subnet_associations` contain the subnet's id are emitted (node and edge),
in the order they occur in `vpc.route_tables` — the emitted block refines
the Association Resolver contract `routeTablesFor`. -/
theorem route_table_association_iff (subnet : Subnet) (vpc : VPC) :
    process_subnet subnet vpc
      = [ "            subgraph subnet_" ++ sanitize subnet.id ++ "[\"" ++
            (if subnet.public then "Public" else "Private") ++ " Subnet (" ++
            subnet.cidr ++ ")\"]" ]
        ++ (routeTablesFor subnet vpc).flatMap
            (fun rt => add_route_table rt (sanitize subnet.id))
        ++ vpc.security_groups.flatMap
            (fun sg => add_security_group sg (sanitize subnet.id))
        ++ [ "            end" ] := by
  simp only [process_subnet, routeTablesFor, flatMap_ite_eq_filter_flatMap,
    List.append_assoc, String.append_assoc]

/-- Claim C2: grouping a VPC's subnets by availability zone yields keys in
order of first occurrence, each group being the input-ordered subnets of
that AZ; the concatenation of the groups is a permutation of the input
(no loss, no duplication) and the number of groups equals the number of
distinct `az` values. -/
theorem az_grouping_spec (subnets : List Subnet) :
    groupByAZ subnets = azGroupsSpec subnets
    ∧ List.Perm ((groupByAZ subnets).flatMap Prod.snd) subnets
    ∧ (groupByAZ subnets).length = ((subnets.map Subnet.az).dedup).length :=
  ⟨groupByAZ_eq_spec subnets, groupByAZ_flatten_perm subnets,
    groupByAZ_length_dedup subnets⟩

/-- Claim C3: after the VPC block is closed, the Internet-Gateway node
`igw_<sanitize(vpc.id)>` is emitted, followed by exactly one gateway edge
per public subnet in declaration order and none for non-public subnets. -/
theorem igw_edges_public_only (vpc : VPC) :
    process_vpc vpc
      = [ "    subgraph " ++ sanitize vpc.id ++ "[\"" ++ vpc.name ++ " (" ++
            vpc.cidr ++ ")\"]" ]
        ++ (groupByAZ vpc.subnets).flatMap (fun p => process_az p.1 p.2 vpc)
        ++ [ "    end" ]
        ++ [ "    igw_" ++ sanitize vpc.id ++ "[\"Internet Gateway\"]" ]
        ++ (vpc.subnets.filter Subnet.public).map
            (fun s => "    igw_" ++ sanitize vpc.id ++ " --> subnet_" ++ sanitize s.id) := by
  simp only [process_vpc, flatMap_ite_eq_filter_flatMap, flatMap_singleton_eq_map,
    List.append_assoc, String.append_assoc]

/-- Claim C8: `generate_diagram` is a pure deterministic function of the
model — the returned text does not depend on the generator's previous
`diagram` buffer (which is reset on entry), and two successive invocations
on the same generator return identical text. -/
theorem generate_diagram_deterministic (g : GenState) :
    (generate_diagramS g).2 = generate_diagram g.data
    ∧ (generate_diagramS (generate_diagramS g).1).2 = (generate_diagramS g).2 := by
  constructor
  · simp [generate_diagramS, generate_diagram, foldl_diagram_append]
  · simp [generate_diagramS, foldl_diagram_append]

/-- Claim C9: an invocation of `generate_diagram` leaves the input model
held by the generator unchanged — only the output buffer and return value
are produced. -/
theorem generate_diagram_preserves_model (g : GenState) :
    ((generate_diagramS g).1).data = g.data := by
  simp [generate_diagramS, foldl_diagram_append]

/-- Claim C10: the identifier of an AZ containment block is
`sanitize(az)` with no per-VPC component, so two VPCs containing subnets
with the same AZ string open two AZ blocks with the identical identifier
(concretely, the duplicate-AZ model emits the same AZ subgraph line
twice). -/
theorem az_identifier_not_vpc_scoped :
    (∀ (az : String) (subnets : List Subnet) (vpc : VPC),
        (process_az az subnets vpc).head?
          = some ("        subgraph " ++ sanitize az ++ "[\"" ++ az ++ "\"]"))
    ∧ (c10Model.vpcs.flatMap process_vpc).count
        "        subgraph us_east_1a[\"us-east-1a\"]" = 2 := by
  constructor
  · intro az subnets vpc; rfl
  · decide

/-- Claim C4: every security group of the VPC is emitted under every
subnet, regardless of association, in the order of `vpc.security_groups`
(refining the Association Resolver contract `securityGroupsFor`), each
emission being one node line plus one edge line, so the number of
security-group lines under the subnets of a VPC is
2 × |subnets| × |security_groups| (node count |subnets| × |security_groups|). -/
theorem security_groups_unscoped (subnet : Subnet) (vpc : VPC) :
    process_subnet subnet vpc
      = [ "            subgraph subnet_" ++ sanitize subnet.id ++ "[\"" ++
            (if subnet.public then "Public" else "Private") ++ " Subnet (" ++
            subnet.cidr ++ ")\"]" ]
        ++ vpc.route_tables.flatMap (fun rt =>
            if rt.subnet_associations.contains subnet.id then
              add_route_table rt (sanitize subnet.id) else [])
        ++ (securityGroupsFor subnet vpc).flatMap
            (fun sg => add_security_group sg (sanitize subnet.id))
        ++ [ "            end" ]
    ∧ (∀ (sg : SecurityGroup) (sid : String), (add_security_group sg sid).length = 2)
    ∧ sgLineCount (process_vpc vpc)
        = 2 * (vpc.subnets.length * vpc.security_groups.length) := by
  refine ⟨?_, fun sg sid => rfl, sgLineCount_process_vpc vpc⟩
  simp only [process_subnet, securityGroupsFor, List.append_assoc, String.append_assoc]

/-- Claim C5: the collector substitutes the placeholder `"Unknown"` for an
absent destination or target of a raw route, and `"All"` for an absent
port bound of a raw ingress rule (src/mapper.py lines 53-59 and 76-83);
emitting a route table containing such a substituted route completes
normally, producing the node and edge lines with the placeholder in the
label. -/
theorem missing_optional_fields_placeholders (route : RawRouteDict) (r : RawIpPermission) :
    (List.lookup "DestinationCidrBlock" route = none →
      (mapRoute route).destination = "Unknown")
    ∧ (List.find? (fun kv => kv.1.endsWith "Id") route = none →
      (mapRoute route).target = "Unknown")
    ∧ (r.fromPort = none → (mapRule r).port_range = "All-" ++ portStr r.toPort)
    ∧ (r.toPort = none → (mapRule r).port_range = portStr r.fromPort ++ "-All")
    ∧ add_route_table c5RouteTable "subnet_1"
      = [ "                rt_rtb_1[\"Route Table<br/>- Unknown → Unknown\"]",
          "                rt_rtb_1 --> subnet_subnet_1" ] := by
  refine ⟨fun h => ?_, fun h => ?_, fun h => ?_, fun h => ?_, by decide⟩
  · simp [mapRoute, h]
  · simp [mapRoute, h]
  · simp [mapRule, h, portStr]
  · show portStr r.fromPort ++ "-" ++ portStr r.toPort = portStr r.fromPort ++ "-All"
    rw [h, String.append_assoc]
    rfl

/-- Witness for C5 at concrete inputs: the empty raw route dictionary and
a raw ingress permission with every optional field absent. -/
theorem missing_optional_fields_placeholders_witness :
    (mapRoute ([] : RawRouteDict)).destination = "Unknown"
    ∧ (mapRoute ([] : RawRouteDict)).target = "Unknown"
    ∧ (mapRule c5Rule).port_range = "All-" ++ portStr c5Rule.toPort
    ∧ (mapRule c5Rule).port_range = portStr c5Rule.fromPort ++ "-All" := by
  have h := missing_optional_fields_placeholders ([] : RawRouteDict) c5Rule
  exact ⟨h.1 rfl, h.2.1 rfl, h.2.2.1 rfl, h.2.2.2.1 rfl⟩

theorem except_bind_error {α β : Type} (e : String) (f : α → Except String β) :
    (Except.error e >>= f) = (Except.error e : Except String β) := rfl

theorem except_bind_ok {α β : Type} (a : α) (f : α → Except String β) :
    ((Except.ok a : Except String α) >>= f) = f a := rfl

theorem except_isOk_error {α : Type} (e : String) :
    (Except.error e : Except String α).isOk = false := rfl

theorem process_vpcE_missing_field (v : RawVPC)
    (h : v.id = none ∨ v.name = none ∨ v.cidr = none ∨ v.subnets = none) :
    (process_vpcE v).isOk = false := by
  unfold process_vpcE
  cases hid : v.id <;> cases hname : v.name <;> cases hcidr : v.cidr <;>
    cases hsubs : v.subnets <;>
      simp_all [req, except_bind_error, except_bind_ok, except_isOk_error]

theorem process_vpcsE_fail_of_mem (vs : List RawVPC) (v : RawVPC) (hmem : v ∈ vs)
    (hfail : (process_vpcE v).isOk = false) :
    (process_vpcsE vs).isOk = false := by
  induction vs with
  | nil => cases hmem
  | cons w rest ih =>
    rcases List.mem_cons.mp hmem with rfl | hmem'
    · unfold process_vpcsE
      cases hw : process_vpcE v with
      | error e => rfl
      | ok a => rw [hw] at hfail; exact Bool.noConfusion hfail
    · unfold process_vpcsE
      cases hw : process_vpcE w with
      | error e => rfl
      | ok a =>
        have hrest := ih hmem'
        cases hr : process_vpcsE rest with
        | error e => rfl
        | ok b => rw [hr] at hrest; exact Bool.noConfusion hrest

/-- Counterexample to C6 as stated: a model whose subnet lacks the
`public` key (one of the fields the claim lists as required) is emitted
successfully — `subnet.get('public')` substitutes a falsy default instead
of aborting. -/
theorem required_field_public_absent_no_abort :
    c6RawSubnet.public = none ∧ (generate_diagramE c6RawModel).isOk = true :=
  ⟨rfl, by decide⟩

/-- Claim C6 (amended): absence of a field the emitter reads with a
mandatory dictionary access does abort emission with an error surfaced to
the caller — shown here for the unconditionally read VPC fields `id`,
`name`, `cidr` and `subnets`; fields read through `.get` with a default
(`public`, `subnet_associations`) do not abort (see the counterexample). -/
theorem required_field_missing_aborts (m : RawNetworkModel) (vs : List RawVPC)
    (v : RawVPC) (hm : m.vpcs = some vs) (hv : v ∈ vs)
    (h : v.id = none ∨ v.name = none ∨ v.cidr = none ∨ v.subnets = none) :
    (generate_diagramE m).isOk = false := by
  have hfail := process_vpcsE_fail_of_mem vs v hv (process_vpcE_missing_field v h)
  have hred : generate_diagramE m
      = (process_vpcsE vs >>= fun lines => pure (String.intercalate "\n    "
          (["graph TB"] ++ lines ++ styling_lines))) := by
    unfold generate_diagramE
    rw [hm]
    rfl
  rw [hred]
  cases hr : process_vpcsE vs with
  | error e => rfl
  | ok b => rw [hr] at hfail; exact Bool.noConfusion hfail

/-- Witness for the amended C6: the model whose VPC lacks `id` aborts. -/
theorem required_field_missing_aborts_witness :
    (generate_diagramE c6NoIdModel).isOk = false :=
  required_field_missing_aborts c6NoIdModel [c6NoIdVPC] c6NoIdVPC rfl
    (List.mem_singleton.mpr rfl) (Or.inl rfl)

end AwsNetworker
